import Mathlib

/-!
Verification development for the cs-traffic-filtering tools.

The development shallowly embeds the two core subsystems:

* the condition-based CIDR/IP filtering engine (`filter_cli/filter_cli.go`:
  `loadIPs`, `isIPInList`, `isPublicIP`, `filterCSV`), together with the
  relevant behaviour of Go's `net` standard library (`net.ParseIP`,
  `net.ParseCIDR`, `net.CIDRMask`, `net.IP.To4`, `net.IP.Mask`,
  `net.IPNet.Contains`) on which it relies;
* the segmented retriever (`api_auto/api_auto.go` and `api/api.go`:
  `withRetry`, `writeCSV`, the time-segment tables and the two merge loops),
  together with the relevant behaviour of Go's `encoding/csv` writer and of
  POSIX file writes in `O_APPEND` versus plain `O_WRONLY` mode.

Machine strings are modelled as Lean `String`s processed character by
character; the inputs exercised by the tools are ASCII, where Go's byte
positions and Lean's character positions agree.  File contents are modelled
as `String`s for the same reason.  All recursions are structural so that
every definition evaluates inside the kernel.
-/

set_option maxRecDepth 8192

deriving instance DecidableEq for Except

/-! ## Character helpers (ASCII), modelling Go's `unicode` predicates -/

/-- Decimal digit test, modelling the `'0' <= c && c <= '9'` checks in Go's
`net`/`netip` parsers. -/
def isDigitChar (c : Char) : Bool := decide ('0' ≤ c ∧ c ≤ '9')

/-- Hexadecimal digit test, from `netip.parseIPv6`'s inline hex parser. -/
def isHexChar (c : Char) : Bool :=
  decide ('0' ≤ c ∧ c ≤ '9') || decide ('a' ≤ c ∧ c ≤ 'f') ||
  decide ('A' ≤ c ∧ c ≤ 'F')

/-- Value of a hexadecimal digit. -/
def hexVal (c : Char) : Nat :=
  if '0' ≤ c ∧ c ≤ '9' then c.toNat - '0'.toNat
  else if 'a' ≤ c ∧ c ≤ 'f' then c.toNat - 'a'.toNat + 10
  else c.toNat - 'A'.toNat + 10

/-- Model of `unicode.IsSpace` (the white-space set used by
`strings.TrimSpace`): ASCII white space plus the Latin-1 and Unicode space
characters enumerated by Go's `unicode.White_Space` table. -/
def isSpaceGo (c : Char) : Bool :=
  c == ' ' || c == '\t' || c == '\n' || c == '\x0b' || c == '\x0c' ||
  c == '\r' || c == '\x85' || c == '\xa0' || c == ' ' ||
  (decide (' ' ≤ c ∧ c ≤ ' ')) ||
  c == ' ' || c == ' ' || c == ' ' || c == ' ' ||
  c == '　'

/-- Model of `strings.TrimSpace`: drop white space from both ends. -/
def trimSpace (s : String) : String :=
  ⟨((s.data.dropWhile isSpaceGo).reverse.dropWhile isSpaceGo).reverse⟩

/-- Split a character list at every occurrence of the separator character
(used to model the field splitting performed by Go's IP parsers, which scan
for `'.'`, `':'` and `'/'`). -/
def splitOnChar (sep : Char) : List Char → List (List Char)
  | [] => [[]]
  | c :: rest =>
    let r := splitOnChar sep rest
    if c = sep then [] :: r
    else
      match r with
      | [] => [[c]]
      | g :: gs => (c :: g) :: gs

/-! ## Model of `netip.parseIPv4` / `netip.parseIPv6` / `netip.ParseAddr`

Go's `net.ParseIP` and `net.ParseCIDR` both parse addresses through
`netip.ParseAddr` and reject any address carrying a zone (a `'%'` suffix),
so the model rejects `'%'` outright. -/

/-- One dotted-quad field of `netip.parseIPv4`: one or more decimal digits,
no leading zero, and value at most 255 (Go checks the value bound during
accumulation; since accumulation is monotone this is equivalent to the
bound on the final value). -/
def decOctet (g : List Char) : Option Nat :=
  if g ≠ [] ∧ g.all isDigitChar = true ∧ (g.length = 1 ∨ g.headD '0' ≠ '0') then
    let v := g.foldl (fun a c => a * 10 + (c.toNat - '0'.toNat)) 0
    if v ≤ 255 then some v else none
  else none

/-- Model of `netip.parseIPv4`: exactly four dot-separated fields, each a
valid octet.  Returns the four bytes. -/
def parseIPv4 (s : String) : Option (List Nat) :=
  match (splitOnChar '.' s.data).mapM decOctet with
  | some vs => if vs.length = 4 then some vs else none
  | none => none

/-- One 16-bit group of `netip.parseIPv6`: one or more hex digits with value
at most 0xFFFF (again, the accumulation-time overflow check is equivalent
to the bound on the final value). -/
def hexGroup (g : List Char) : Option Nat :=
  if g ≠ [] ∧ g.all isHexChar = true then
    let v := g.foldl (fun a c => a * 16 + hexVal c) 0
    if v ≤ 0xFFFF then some v else none
  else none

/-- Parse a run of colon-separated hex groups into bytes (two bytes per
group, big endian).  Used for the part of an IPv6 address before a `::`,
where an embedded IPv4 suffix is impossible (in Go's parser an embedded
IPv4 consumes the entire remainder of the address). -/
def hexGroupBytes : List (List Char) → Option (List Nat)
  | [] => some []
  | g :: rest => do
    let v ← hexGroup g
    let bs ← hexGroupBytes rest
    pure (v / 256 :: v % 256 :: bs)

/-- Parse the final run of colon-separated groups of an IPv6 address; the
last group may be an embedded dotted-quad IPv4 address (contributing four
bytes), exactly as in `netip.parseIPv6` where a `'.'` inside a group hands
the whole remainder of the string to `parseIPv4`. -/
def tailGroupBytes : List (List Char) → Option (List Nat)
  | [] => some []
  | [g] =>
    if g.contains '.' then parseIPv4 ⟨g⟩
    else (hexGroup g).map (fun v => [v / 256, v % 256])
  | g :: rest => do
    let v ← hexGroup g
    let bs ← tailGroupBytes rest
    pure (v / 256 :: v % 256 :: bs)

/-- Split a character list at the first occurrence of `"::"`, if any,
returning the parts before and after it. -/
def splitDoubleColon : List Char → Option (List Char × List Char)
  | [] => none
  | [_] => none
  | ':' :: ':' :: rest => some ([], rest)
  | c :: rest => (splitDoubleColon rest).map (fun p => (c :: p.1, p.2))

/-- True when the character list still contains a `"::"`. -/
def hasDoubleColon (l : List Char) : Bool := (splitDoubleColon l).isSome

/-- Model of `netip.parseIPv6`, returning the sixteen address bytes.
Functionally equivalent reformulation of Go's left-to-right loop: split at
the first `"::"` (a second one is an error); the groups before it must be
plain hex groups, the groups after it (or all groups, when there is no
`"::"`) may end in an embedded IPv4 address; without `"::"` the groups must
supply exactly sixteen bytes, with `"::"` at most fourteen (the ellipsis
must expand to at least one zero group), and the missing bytes are filled
with zeros.  Addresses with a zone (`'%'`) are rejected as both
`net.ParseIP` and `net.ParseCIDR` do. -/
def parseIPv6 (s : String) : Option (List Nat) :=
  if s.data.contains '%' then none
  else
    match splitDoubleColon s.data with
    | none =>
      match tailGroupBytes (splitOnChar ':' s.data) with
      | some bs => if bs.length = 16 then some bs else none
      | none => none
    | some (l, r) =>
      if hasDoubleColon r then none
      else
        let lgs := if l = [] then [] else splitOnChar ':' l
        let rgs := if r = [] then [] else splitOnChar ':' r
        match hexGroupBytes lgs, tailGroupBytes rgs with
        | some lb, some rb =>
          if lb.length + rb.length ≤ 14 then
            some (lb ++ List.replicate (16 - lb.length - rb.length) 0 ++ rb)
          else none
        | _, _ => none

/-- The 12-byte `::ffff:` pattern marking an IPv4-mapped IPv6 address
(`v4InV6Prefix` in Go's `net` package). -/
def v4inV6 : List Nat := [0, 0, 0, 0, 0, 0, 0, 0, 0, 0, 255, 255]

/-- Model of `netip.ParseAddr` as consumed by `net.ParseIP` and
`net.ParseCIDR`: dispatch on the first of `'.'`, `':'`, `'%'` to occur;
`'.'` selects the IPv4 parser, `':'` the IPv6 parser, `'%'` and "no
special character at all" are errors.  Returns the sixteen `As16` bytes
(IPv4 addresses mapped into `::ffff:a.b.c.d` form) together with a flag
recording whether the address is a 4-byte address (`BitLen` 32). -/
def netipParseAddr (s : String) : Option (List Nat × Bool) :=
  match s.data.find? (fun c => c == '.' || c == ':' || c == '%') with
  | some '.' => (parseIPv4 s).map (fun bs => (v4inV6 ++ bs, true))
  | some ':' => (parseIPv6 s).map (fun bs => (bs, false))
  | _ => none

/-- Model of `net.ParseIP`: the sixteen-byte slice on success, `none` (Go:
`nil`) on failure. -/
def goParseIP (s : String) : Option (List Nat) :=
  (netipParseAddr s).map (·.1)

/-- Model of `net.IP.To4`: a 4-byte slice stays itself; a 16-byte
IPv4-mapped slice is cut down to its last four bytes; anything else gives
`none` (Go: `nil`). -/
def goTo4 (ip : List Nat) : Option (List Nat) :=
  if ip.length = 4 then some ip
  else if ip.length = 16 ∧ ip.take 12 = v4inV6 then some (ip.drop 12)
  else none

/-- Model of `net.CIDRMask ones bits`: a `bits/8`-byte mask with `ones`
leading one bits.  Byte `i` is `0xff` while at least eight of the ones
remain, otherwise `^(0xff >> n)` for the `n` remaining ones (expressed
arithmetically as `255 - 255 / 2^n`; natural subtraction makes the
exhausted case give 0 exactly as Go's loop does). -/
def goCIDRMask (ones bits : Nat) : List Nat :=
  if (bits = 32 ∨ bits = 128) ∧ ones ≤ bits then
    (List.range (bits / 8)).map (fun i =>
      if 8 * (i + 1) ≤ ones then 255 else 255 - 255 / 2 ^ (ones - 8 * i))
  else []

/-- Model of `net.IP.Mask`: trim an all-ones 12-byte prefix off a 16-byte
mask applied to a 4-byte address, trim the `::ffff:` pattern off a 16-byte
IPv4-mapped address masked with a 4-byte mask, then AND byte-wise; length
mismatch gives the empty slice (Go: `nil`). -/
def goMaskIP (ip mask : List Nat) : List Nat :=
  let mask' := if mask.length = 16 ∧ ip.length = 4 ∧ (mask.take 12).all (· == 255) = true
    then mask.drop 12 else mask
  let ip' := if mask'.length = 4 ∧ ip.length = 16 ∧ ip.take 12 = v4inV6
    then ip.drop 12 else ip
  if ip'.length = mask'.length then ip'.zipWith Nat.land mask' else []

/-- A parsed CIDR block: the (masked) network address and the mask, as in
Go's `net.IPNet`. -/
structure GoIPNet where
  ip : List Nat
  mask : List Nat
deriving DecidableEq, Repr

/-- Model of `net.dtoi` combined with `ParseCIDR`'s `i == len(mask)` check:
the string must consist solely of decimal digits, be non-empty, and the
value must stay below the `0xFFFFFF` cutoff. -/
def dtoiFull (s : String) : Option Nat :=
  if s.data ≠ [] ∧ s.data.all isDigitChar = true then
    let v := s.data.foldl (fun a c => a * 10 + (c.toNat - '0'.toNat)) 0
    if v < 0xFFFFFF then some v else none
  else none

/-- Rejoin character-list fragments with `'/'` between them. -/
def joinSlash : List (List Char) → String
  | [] => ""
  | [g] => ⟨g⟩
  | g :: gs => String.mk g ++ "/" ++ joinSlash gs

/-- Split a string at the first `'/'`, as `net.ParseCIDR` does with
`IndexByte`; everything after the first `'/'` (further slashes included)
is the prefix-length part. -/
def splitSlash (s : String) : Option (String × String) :=
  match splitOnChar '/' s.data with
  | [] => none
  | [_] => none
  | a :: rest => some (⟨a⟩, joinSlash rest)

/-- Model of `net.ParseCIDR`, returning the `*net.IPNet` component: parse
the address via `netip.ParseAddr`, the prefix length via `dtoi` (which must
consume the whole suffix and stay within `0 ≤ n ≤ BitLen`), build the mask
with `CIDRMask` over the address family's bit length, and store the masked
network address. -/
def goParseCIDR (s : String) : Option GoIPNet :=
  match splitSlash s with
  | none => none
  | some (addr, maskStr) =>
    match netipParseAddr addr with
    | none => none
    | some (bytes16, is4) =>
      let bitLen := if is4 then 32 else 128
      match dtoiFull maskStr with
      | none => none
      | some n =>
        if n ≤ bitLen then
          let m := goCIDRMask n bitLen
          some ⟨goMaskIP bytes16 m, m⟩
        else none

/-- Model of `net.networkNumberAndMask`: normalise the network address via
`To4`; a non-16-byte address that `To4` cannot normalise, or a mask length
other than 4 or 16, or a 4-byte mask against a 16-byte address, gives
`([], [])` (Go: `nil, nil`); a 16-byte mask against a 4-byte address is cut
to its last four bytes. -/
def networkNumberAndMask (n : GoIPNet) : List Nat × List Nat :=
  let ip := match goTo4 n.ip with
    | some ip4 => ip4
    | none => n.ip
  if (goTo4 n.ip).isNone = true ∧ ip.length ≠ 16 then ([], [])
  else if n.mask.length = 4 then
    if ip.length ≠ 4 then ([], []) else (ip, n.mask)
  else if n.mask.length = 16 then
    if ip.length = 4 then (ip, n.mask.drop 12) else (ip, n.mask)
  else ([], [])

/-- Model of `net.IPNet.Contains`: normalise the queried address via `To4`,
require equal lengths, and compare all bytes under the mask. -/
def goContains (n : GoIPNet) (ip : List Nat) : Bool :=
  let nm := networkNumberAndMask n
  let ip' := match goTo4 ip with
    | some x => x
    | none => ip
  if ip'.length ≠ nm.1.length then false
  else ((nm.1.zip nm.2).zip ip').all
    (fun p => Nat.land p.1.1 p.1.2 == Nat.land p.2 p.1.2)

/-! ## Model of the filter engine (`filter_cli/filter_cli.go`) -/

/-- A filter condition, as in `filter_cli.go`'s `FilterCondition`: a field
name (`"sourceIP"` or `"destIP"`), an operator (`"=="` or `"!="`) and a
list of list-file references, where the reference `"Internet"` is a
sentinel for "globally routable address". -/
structure FilterCondition where
  Field : String
  Operator : String
  ListFiles : List String
deriving DecidableEq, Repr

/-- Model of `loadIPs`: process the trimmed lines of an IP list file in
order; each line is first tried as a CIDR (`net.ParseCIDR`), then as a
bare IP (`net.ParseIP`) that is stored with a `CIDRMask(32, 32)` mask;
the first line that is neither aborts the load with an error, so no
partial result is ever produced.  File I/O is abstracted: the argument is
the list of lines the `bufio.Scanner` yields. -/
def loadIPs : List String → Except String (List GoIPNet)
  | [] => .ok []
  | line :: rest =>
    let ipOrCIDR := trimSpace line
    match goParseCIDR ipOrCIDR with
    | some ipNet => (loadIPs rest).map (ipNet :: ·)
    | none =>
      match goParseIP ipOrCIDR with
      | some ip => (loadIPs rest).map (⟨ip, goCIDRMask 32 32⟩ :: ·)
      | none => .error ("invalid IP or CIDR: " ++ ipOrCIDR)

/-- Model of `isIPInList`: parse the address with `net.ParseIP`; an
unparseable address gives `false`; otherwise test membership in each
block with `net.IPNet.Contains`. -/
def isIPInList (ip : String) (ipNets : List GoIPNet) : Bool :=
  match goParseIP ip with
  | none => false
  | some parsedIP => ipNets.any (fun ipNet => goContains ipNet parsedIP)

/-- The fixed reserved-range table of `isPublicIP`. -/
def privateIPBlocks : List String :=
  ["10.0.0.0/8", "172.16.0.0/12", "192.168.0.0/16", "169.254.0.0/16",
   "127.0.0.0/8", "224.0.0.0/4", "255.255.255.255/32"]

/-- Model of `isPublicIP`: parse the address with `net.ParseIP`; an
unparseable address gives `false`; otherwise the address is public unless
one of the fixed reserved blocks contains it.  The Go code ignores the
(impossible) parse error of the constant block strings; the model skips a
block that fails to parse, which is equivalent since all seven parse. -/
def isPublicIP (ip : String) : Bool :=
  match goParseIP ip with
  | none => false
  | some parsedIP =>
    privateIPBlocks.all (fun block =>
      match goParseCIDR block with
      | some cidr => !goContains cidr parsedIP
      | none => true)

/-- The address a condition inspects in a record: column 3 for
`"sourceIP"`, column 4 for `"destIP"`, and the zero-value `""` for any
other field name (`var ip string` is never assigned in that case). -/
def condIP (record : List String) (cond : FilterCondition) : String :=
  if cond.Field = "sourceIP" then record.getD 3 ""
  else if cond.Field = "destIP" then record.getD 4 "" else ""

/-- Inner loop of `filterCSV` over one condition's list references:
`"Internet"` is tested with `isPublicIP`, a named list with `isIPInList`
over the loaded list, stopping at the first hit. -/
def condInList (ip : String) (lookup : String → List GoIPNet) : List String → Bool
  | [] => false
  | listFile :: rest =>
    let inL := if listFile = "Internet" then isPublicIP ip
      else isIPInList ip (lookup listFile)
    if inL then true else condInList ip lookup rest

/-- Outer condition loop of `filterCSV`: a condition with operator `"=="`
excludes the record when the address is in none of its lists, one with
`"!="` excludes it when the address is in some list; evaluation stops at
the first failing condition. -/
def evalConds (record : List String) (lookup : String → List GoIPNet) :
    List FilterCondition → Bool
  | [] => true
  | cond :: rest =>
    let inL := condInList (condIP record cond) lookup cond.ListFiles
    if (cond.Operator = "==" ∧ inL = false) ∨ (cond.Operator = "!=" ∧ inL = true)
    then false
    else evalConds record lookup rest

/-- Per-record decision of `filterCSV`'s main loop: a record is written to
the output iff it has at least five fields, its first field equals the
preset's flow status exactly, and every condition passes. -/
def keepRecord (conds : List FilterCondition) (flowStatus : String)
    (lookup : String → List GoIPNet) (record : List String) : Bool :=
  if record.length < 5 then false
  else if record.headD "" ≠ flowStatus then false
  else evalConds record lookup conds

/-- Counters and output of `filterCSV`'s main loop. -/
structure FilterResult where
  written : List (List String)
  recordCount : Nat
  filteredCount : Nat
deriving DecidableEq, Repr

/-- Model of `filterCSV`'s main loop over the data records (the rows the
CSV reader yields after the header): every record is counted; records
with fewer than five fields are skipped; records whose first field is not
the preset's flow status are skipped; the remaining records are written
unchanged iff all conditions pass, and counted as filtered. -/
def filterRecords (conds : List FilterCondition) (flowStatus : String)
    (lookup : String → List GoIPNet) : List (List String) → FilterResult
  | [] => ⟨[], 0, 0⟩
  | record :: rest =>
    let res := filterRecords conds flowStatus lookup rest
    if record.length < 5 then ⟨res.written, res.recordCount + 1, res.filteredCount⟩
    else if record.headD "" ≠ flowStatus then
      ⟨res.written, res.recordCount + 1, res.filteredCount⟩
    else if evalConds record lookup conds then
      ⟨record :: res.written, res.recordCount + 1, res.filteredCount + 1⟩
    else ⟨res.written, res.recordCount + 1, res.filteredCount⟩

/-- Model of `filterCSV`'s list-loading prologue: walk the conditions and
their list references in order; every reference other than `"Internet"`
whose current entry is empty (Go: `ipLists[listFile] == nil`) is loaded
with `loadIPs`; a load failure aborts the whole pass.  The file system is
abstracted as a partial map from file name to lines. -/
def loadLists (conds : List FilterCondition)
    (fsys : String → Option (List String)) :
    Except String (String → List GoIPNet) :=
  (conds.map (·.ListFiles)).flatten.foldl
    (fun acc listFile =>
      acc.bind (fun m =>
        if listFile ≠ "Internet" ∧ m listFile = [] then
          match fsys listFile with
          | none => .error ("error loading IP list " ++ listFile ++
              ": error opening IP list file")
          | some lines =>
            match loadIPs lines with
            | .error e => .error ("error loading IP list " ++ listFile ++ ": " ++ e)
            | .ok ipList => .ok (fun x => if x = listFile then ipList else m x)
        else .ok m))
    (.ok (fun _ => []))

/-- The count message `filterCSV` returns through its error value after a
complete pass: `fmt.Errorf("processed %d records, filtered %d records",
recordCount, filteredCount)`. -/
def countsMsg (recordCount filteredCount : Nat) : String :=
  "processed " ++ Nat.repr recordCount ++ " records, filtered " ++
  Nat.repr filteredCount ++ " records"

/-- Rows written to the output file and the `error` return value of one
`filterCSV` run. -/
structure FilterCSVRun where
  output : List (List String)
  ret : Option String

/-- Model of `filterCSV` on an already-opened input (its rows, header
first): an empty input fails while reading the header; the header is
written through before the lists are loaded, so a list-load failure leaves
just the header in the output; otherwise the main loop runs and the
function returns the (always non-nil) count message as its error value. -/
def filterCSVrun (conds : List FilterCondition) (flowStatus : String)
    (fsys : String → Option (List String)) (rows : List (List String)) :
    FilterCSVRun :=
  match rows with
  | [] => ⟨[], some "error reading CSV header: EOF"⟩
  | header :: records =>
    match loadLists conds fsys with
    | .error e => ⟨[header], some e⟩
    | .ok lookup =>
      let res := filterRecords conds flowStatus lookup records
      ⟨header :: res.written, some (countsMsg res.recordCount res.filteredCount)⟩

/-- Model of the branch in `filter_cli.go`'s `main` that consumes
`filterCSV`'s return value: `if err != nil` prints "Filtering complete"
and proceeds to the upload (the success path), while `err == nil` prints
"Error during filtering" and exits with status 1. -/
def mainTreatsFilterReturnAsSuccess (ret : Option String) : Bool :=
  ret.isSome

/-! ## Model of the segmented retriever (`api_auto/api_auto.go`, `api/api.go`) -/

/-- Events and outcome of one `withRetry` call: the seconds slept before
each retry, the number of times the operation was invoked, and the final
result. -/
structure RetryRun (A : Type) where
  sleeps : List Nat
  attempts : Nat
  outcome : Except String A
deriving Repr

/-- The message `withRetry` builds after exhausting its attempts:
`fmt.Errorf("all %d attempts failed, last error: %v", maxRetries, lastErr)`. -/
def allFailedMsg (maxRetries : Nat) (lastErr : String) : String :=
  "all " ++ Nat.repr maxRetries ++ " attempts failed, last error: " ++ lastErr

/-- Body of `withRetry`'s `for i := 0; i < maxRetries; i++` loop, with the
remaining iteration count `rem = maxRetries - i` made explicit so the
recursion is structural.  Before every attempt with index `i > 0` the loop
sleeps `i * 2` seconds; a successful attempt returns immediately;
otherwise the error is remembered and the loop continues.  The operation
is modelled as a function of the attempt index, since each Go invocation
may give a different outcome. -/
def retryLoop (op : Nat → Except String A) (maxRetries : Nat) :
    Nat → Nat → String → List Nat → RetryRun A
  | 0, i, lastErr, sleeps => ⟨sleeps, i, .error (allFailedMsg maxRetries lastErr)⟩
  | rem + 1, i, _lastErr, sleeps =>
    let sleeps' := if 0 < i then sleeps ++ [i * 2] else sleeps
    match op i with
    | .ok v => ⟨sleeps', i + 1, .ok v⟩
    | .error e => retryLoop op maxRetries rem (i + 1) e sleeps'

/-- Model of `withRetry(operation, maxRetries)`.  The initial remembered
error is Go's `nil`, printed as `<nil>` by `%v`. -/
def withRetryGo (op : Nat → Except String A) (maxRetries : Nat) : RetryRun A :=
  retryLoop op maxRetries maxRetries 0 "<nil>" []

/-- The fixed output header of `writeCSV` (`headersList`). -/
def headersList : List String :=
  ["FlowStatus", "FirstDetected", "LastDetected", "Source_IP",
   "Destination_IP", "DestinationPort", "Protocol", "ByteCount"]

/-- The upstream field names `writeCSV` reads from each flow object
(`originalHeaders`). -/
def originalHeaders : List String :=
  ["status", "start_time", "end_time", "src", "dst", "dst_port", "protocol",
   "bytes"]

/-- Character class of the regular expression `ip_address:([\d\.]+)`. -/
def isDigitDot (c : Char) : Bool := isDigitChar c || c == '.'

/-- The literal part of the pattern `ip_address:([\d\.]+)`. -/
def ipAddrToken : List Char := "ip_address:".data

/-- Leftmost match of `ip_address:([\d\.]+)`: at the first position where
the literal token occurs followed by at least one digit-or-dot character,
capture the maximal digit-or-dot run; otherwise keep scanning. -/
def findIPSubmatch : List Char → Option (List Char)
  | [] => none
  | c :: rest =>
    if List.take ipAddrToken.length (c :: rest) = ipAddrToken ∧
        isDigitDot ((List.drop ipAddrToken.length (c :: rest)).headD ' ') = true then
      some (List.takeWhile isDigitDot (List.drop ipAddrToken.length (c :: rest)))
    else findIPSubmatch rest

/-- The `src`/`dst` clean-up in `writeCSV`: the first capture group of
`re.FindStringSubmatch`, or the empty string when there is no match. -/
def extractIP (s : String) : String :=
  match findIPSubmatch s.data with
  | some g => ⟨g⟩
  | none => ""

/-- The row `writeCSV` builds for one flow object: the eight upstream
fields in `originalHeaders` order, with the `src` and `dst` descriptor
strings reduced to their embedded dotted-quad (or `""`).  A flow object is
abstracted as the map from upstream field name to the `fmt.Sprintf("%v")`
rendering of its value. -/
def flowRecord (flowMap : String → String) : List String :=
  originalHeaders.map (fun originalHeader =>
    let valueStr := flowMap originalHeader
    if originalHeader = "src" ∨ originalHeader = "dst" then extractIP valueStr
    else valueStr)

/-- Model of `encoding/csv`'s `fieldNeedsQuotes` for the default writer
configuration (`Comma = ','`, `UseCRLF = false`): a field is quoted iff it
is the literal `\.`, or contains a comma, quote, CR or LF, or starts with
a white-space character. -/
def fieldNeedsQuotes (f : String) : Bool :=
  if f = "" then false
  else if f = "\\." then true
  else if f.data.any (fun c => c == ',' || c == '"' || c == '\r' || c == '\n')
  then true
  else isSpaceGo (f.data.headD ' ')

/-- Quote-doubling inside a quoted CSV field (with `UseCRLF = false`, CR
and LF are written through unchanged). -/
def escapeQuotes : List Char → List Char
  | [] => []
  | '"' :: rest => '"' :: '"' :: escapeQuotes rest
  | c :: rest => c :: escapeQuotes rest

/-- One CSV field as `encoding/csv` writes it. -/
def encodeField (f : String) : String :=
  if fieldNeedsQuotes f then "\"" ++ String.mk (escapeQuotes f.data) ++ "\""
  else f

/-- Join strings with a separator. -/
def joinSep (sep : String) : List String → String
  | [] => ""
  | [x] => x
  | x :: xs => x ++ sep ++ joinSep sep xs

/-- Concatenation of a list of strings. -/
def concatAll : List String → String
  | [] => ""
  | s :: rest => s ++ concatAll rest

/-- One CSV record as `encoding/csv` writes it: comma-separated encoded
fields terminated by `'\n'` (`UseCRLF = false`). -/
def encodeRow (r : List String) : String := joinSep "," (r.map encodeField) ++ "\n"

/-- The bytes one `writeCSV(fileName, data, appendMode)` call writes: the
header row iff not in append mode, then one encoded row per flow object. -/
def writeCSVContent (data : List (String → String)) (appendMode : Bool) : String :=
  (if appendMode then "" else encodeRow headersList) ++
  concatAll (data.map (fun flowMap => encodeRow (flowRecord flowMap)))

/-- The rows one `writeCSV` call emits (same content, row-structured). -/
def writeCSVRows (data : List (String → String)) (appendMode : Bool) :
    List (List String) :=
  (if appendMode then [] else [headersList]) ++ data.map flowRecord

/-- Effect on the file of one `writeCSV` call: `os.OpenFile` with
`O_CREATE|O_WRONLY|O_APPEND` writes at the end of the file; with plain
`O_CREATE|O_WRONLY` (no `O_TRUNC`) it writes at offset 0, overwriting the
beginning of any existing content and keeping the bytes beyond what was
written. -/
def goFileWrite (file : String) (appendMode : Bool) (content : String) : String :=
  if appendMode then file ++ content
  else content ++ ⟨file.data.drop content.data.length⟩

/-- One mutex-serialised sequence of `writeCSV` calls, one per listed
segment index, on an initially empty output file: segment index `idx`
is written with `appendMode = idx > 0`.  Instantiated with the canonical
index order this is the sequential merge loop of `api/api.go` (second
variant) and the post-collection loop of `api_auto/api_auto.go`; with an
arbitrary completion order it is the in-goroutine `mu.Lock(); writeCSV(...)`
path of `api/api.go` (first variant), whose writes happen in whatever
order the segment fetches complete. -/
def writeSegments (segs : List (List (String → String))) (order : List Nat) :
    String :=
  order.foldl
    (fun file idx =>
      goFileWrite file (decide (0 < idx)) (writeCSVContent (segs.getD idx []) (decide (0 < idx))))
    ""

/-- The merge loop of `api_auto/api_auto.go`'s `main` (and of the
sequential variant in `api/api.go`): after every segment's result has been
stored at its own index in `allResults`, the segments are written in index
order, segment `i` with `appendMode = i > 0`. -/
def autoAssemble (segs : List (List (String → String))) : String :=
  (segs.enum).foldl
    (fun file p => goFileWrite file (decide (0 < p.1)) (writeCSVContent p.2 (decide (0 < p.1))))
    ""

/-- All rows emitted across one in-order merge, in emission order. -/
def runRows (segs : List (List (String → String))) : List (List String) :=
  ((segs.enum).map (fun p => writeCSVRows p.2 (decide (0 < p.1)))).flatten

/-- The time-segment table of `api_auto/api_auto.go` (12 segments of 2
hours, reverse chronological): each pair is the `(fromTime, toTime)` hour
offset added to the base date `date` by `date.Add(k * time.Hour)`. -/
def timeSegmentsAuto : List (Nat × Nat) :=
  [(22, 24), (20, 22), (18, 20), (16, 18), (14, 16), (12, 14), (10, 12),
   (8, 10), (6, 8), (4, 6), (2, 4), (0, 2)]

/-- The time-segment table of the sequential variant in `api/api.go` (6
segments of 4 hours, reverse chronological), as hour offsets from the base
date. -/
def timeSegmentsApi6 : List (Nat × Nat) :=
  [(20, 24), (16, 20), (12, 16), (8, 12), (4, 8), (0, 4)]

/-- A concrete flow object (as the map from upstream field name to rendered
value) used in the counterexample runs. -/
def sampleFlow : String → String := fun k =>
  if k = "status" then "ALLOWED" else if k = "start_time" then "t1"
  else if k = "end_time" then "t2" else if k = "src" then "ip_address:10.0.0.5"
  else if k = "dst" then "ip_address:8.8.8.8" else if k = "dst_port" then "443"
  else if k = "protocol" then "tcp" else if k = "bytes" then "100" else "<nil>"

/-- A second concrete flow object, carried by the other segment of the
counterexample runs. -/
def sampleFlow2 : String → String := fun k =>
  if k = "status" then "DENIED" else if k = "start_time" then "t3"
  else if k = "end_time" then "t4" else if k = "src" then "ip_address:172.16.0.9"
  else if k = "dst" then "ip_address:1.1.1.1" else if k = "dst_port" then "53"
  else if k = "protocol" then "udp" else if k = "bytes" then "200" else "<nil>"

/-- Two fetched segments, each carrying one flow.  Every segment that
reaches `writeCSV` carries at least one flow: `createFlowReport` returns
the error `no flows data found in the response` whenever the `flows`
array is empty, so only non-empty fetch results are ever written. -/
def sampleSegs : List (List (String → String)) := [[sampleFlow], [sampleFlow2]]

/-! ## Specification-side predicates and auxiliary definitions -/

/-- The reserved-range table of `isPublicIP`, in parsed form. -/
def reservedNets : List GoIPNet := privateIPBlocks.filterMap goParseCIDR

/-- Truth of one list reference for an address, as the specification reads
it: the `"Internet"` sentinel means "globally routable", a named list
means containment in the loaded set. -/
def RefMatches (lookup : String → List GoIPNet) (ip listFile : String) : Prop :=
  (if listFile = "Internet" then isPublicIP ip
   else isIPInList ip (lookup listFile)) = true

/-- Truth of one filter condition for a record, as the specification reads
it: with operator `"=="` some list reference must match the resolved
address, with `"!="` none may. -/
def CondHolds (lookup : String → List GoIPNet) (record : List String)
    (cond : FilterCondition) : Prop :=
  (cond.Operator = "==" →
    ∃ listFile ∈ cond.ListFiles, RefMatches lookup (condIP record cond) listFile) ∧
  (cond.Operator = "!=" →
    ¬ ∃ listFile ∈ cond.ListFiles, RefMatches lookup (condIP record cond) listFile)

instance (lookup : String → List GoIPNet) (ip listFile : String) :
    Decidable (RefMatches lookup ip listFile) := by
  unfold RefMatches; infer_instance

instance (lookup : String → List GoIPNet) (record : List String)
    (cond : FilterCondition) : Decidable (CondHolds lookup record cond) := by
  unfold CondHolds; infer_instance

/-- The `net.IPNet` entry `loadIPs` builds for one (trimmed, parseable)
line: the parsed CIDR when the line is a CIDR, otherwise the bare parsed
address under a `CIDRMask(32, 32)` mask. -/
def lineEntry (s : String) : GoIPNet :=
  match goParseCIDR s with
  | some ipNet => ipNet
  | none => ⟨(goParseIP s).getD [], goCIDRMask 32 32⟩

/-- The sixteen bytes of `::1`. -/
def ipv6Loopback : List Nat := [0, 0, 0, 0, 0, 0, 0, 0, 0, 0, 0, 0, 0, 0, 0, 1]

/-- The seconds slept by `withRetry` during loop iterations
`i, i+1, ..., i+rem-1`: every iteration with positive index sleeps twice
its index. -/
def genSleeps (i rem : Nat) : List Nat :=
  ((List.range' i rem).filter (fun k => decide (0 < k))).map (· * 2)

/-- The two-condition preset of the specification's AND-semantics example. -/
def c1conds : List FilterCondition :=
  [⟨"sourceIP", "==", ["ListA"]⟩, ⟨"destIP", "!=", ["ListB"]⟩]

/-- Loaded lists for the example: `ListA` is `10.0.0.0/8` and `ListB` is
`9.0.0.0/8`. -/
def c1lookup : String → List GoIPNet := fun name =>
  if name = "ListA" then [⟨[10, 0, 0, 0], [255, 0, 0, 0]⟩]
  else if name = "ListB" then [⟨[9, 0, 0, 0], [255, 0, 0, 0]⟩]
  else []

/-- A condition whose field name matches neither address column. -/
def c10cond : FilterCondition := ⟨"portNumber", "==", ["Internet"]⟩

/-- A fetch operation that always fails, used to witness C4. -/
def c4op : Nat → Except String Nat := fun i => .error ("boom " ++ Nat.repr i)

/-- The error strings produced by `c4op`. -/
def c4errf : Nat → String := fun i => "boom " ++ Nat.repr i

/-! ## Theorems -/

theorem genSleeps_succ (i rem : Nat) :
    genSleeps i (rem + 1) = (if 0 < i then [i * 2] else []) ++ genSleeps (i + 1) rem := by
  simp only [genSleeps, List.range'_succ, List.filter_cons]
  by_cases hi : 0 < i <;> simp [hi]

theorem genSleeps_zero_eq (n : Nat) :
    genSleeps 0 n = (List.range' 1 (n - 1)).map (· * 2) := by
  cases n with
  | zero => simp [genSleeps]
  | succ n =>
    rw [genSleeps_succ]
    simp only [show ¬ (0 : Nat) < 0 from by omega, if_neg, List.nil_append,
      Nat.succ_sub_one, not_false_iff]
    unfold genSleeps
    congr 1
    apply List.filter_eq_self.mpr
    intro a ha
    simp only [List.mem_range'_1] at ha
    simp only [decide_eq_true_eq]
    omega

theorem retryLoop_fail (op : Nat → Except String A) (m : Nat) (errf : Nat → String) :
    ∀ (rem i : Nat) (lastErr : String) (sleeps : List Nat),
    (∀ k, i ≤ k → k < i + rem → op k = .error (errf k)) →
    retryLoop op m rem i lastErr sleeps =
      ⟨sleeps ++ genSleeps i rem, i + rem,
       .error (allFailedMsg m (if rem = 0 then lastErr else errf (i + rem - 1)))⟩ := by
  intro rem
  induction rem with
  | zero =>
    intro i lastErr sleeps _
    simp [retryLoop, genSleeps]
  | succ rem ih =>
    intro i lastErr sleeps h
    have hop : op i = .error (errf i) := h i le_rfl (by omega)
    simp only [retryLoop, hop]
    rw [ih (i + 1) (errf i) _ (fun k hk1 hk2 => h k (by omega) (by omega))]
    rw [genSleeps_succ]
    by_cases hrem : rem = 0 <;> by_cases hi : 0 < i <;>
      simp [hrem, hi, List.append_assoc] <;> omega

theorem retryLoop_success (op : Nat → Except String A) (m : Nat)
    (errf : Nat → String) (v : A) :
    ∀ (j rem i : Nat) (lastErr : String) (sleeps : List Nat),
    j < rem → op (i + j) = .ok v →
    (∀ k, i ≤ k → k < i + j → op k = .error (errf k)) →
    retryLoop op m rem i lastErr sleeps =
      ⟨sleeps ++ genSleeps i (j + 1), i + j + 1, .ok v⟩ := by
  intro j
  induction j with
  | zero =>
    intro rem i lastErr sleeps hlt hok _
    cases rem with
    | zero => omega
    | succ rem =>
      rw [show i + 0 = i from rfl] at hok
      simp only [retryLoop, hok]
      rw [genSleeps_succ]
      by_cases hi : 0 < i <;> simp [hi, genSleeps]
  | succ j ih =>
    intro rem i lastErr sleeps hlt hok h
    cases rem with
    | zero => omega
    | succ rem =>
      have hopi : op i = .error (errf i) := h i le_rfl (by omega)
      simp only [retryLoop, hopi]
      rw [ih rem (i + 1) (errf i) _ (by omega)
        (by rw [show i + 1 + j = i + (j + 1) from by omega]; exact hok)
        (fun k hk1 hk2 => h k (by omega) (by omega))]
      conv_rhs => rw [show j + 1 + 1 = (j + 1) + 1 from rfl, genSleeps_succ]
      by_cases hi : 0 < i <;> simp [hi, List.append_assoc] <;> omega

/-- C4: an operation failing on all attempts is invoked exactly
`maxAttempts` times, with sleeps of `2, 4, ...` seconds (twice the attempt
index, no sleep before attempt 0) before the retries, and the final error
is built from the last attempt's error; an attempt that succeeds returns
its result immediately, with no further attempts or sleeps. -/
theorem c4_withRetry_attempts_backoff_last_error
    (op : Nat → Except String A) (maxAttempts : Nat) (errf : Nat → String) :
    (0 < maxAttempts → (∀ i, i < maxAttempts → op i = .error (errf i)) →
      withRetryGo op maxAttempts =
        ⟨(List.range' 1 (maxAttempts - 1)).map (· * 2), maxAttempts,
         .error (allFailedMsg maxAttempts (errf (maxAttempts - 1)))⟩) ∧
    (∀ j v, j < maxAttempts → op j = .ok v →
      (∀ k, k < j → op k = .error (errf k)) →
      withRetryGo op maxAttempts =
        ⟨(List.range' 1 j).map (· * 2), j + 1, .ok v⟩) := by
  constructor
  · intro hpos hfail
    unfold withRetryGo
    rw [retryLoop_fail op maxAttempts errf maxAttempts 0 "<nil>" []
      (fun k hk1 hk2 => hfail k (by omega))]
    have : ¬ maxAttempts = 0 := by omega
    simp [this, genSleeps_zero_eq]
  · intro j v hj hok hfail
    unfold withRetryGo
    rw [retryLoop_success op maxAttempts errf v j maxAttempts 0 "<nil>" [] hj
      (by simpa using hok) (fun k hk1 hk2 => hfail k (by omega))]
    simp [genSleeps_zero_eq]

theorem c4_withRetry_attempts_backoff_last_error_witness :
    withRetryGo c4op 3 =
      ⟨(List.range' 1 (3 - 1)).map (· * 2), 3,
       .error (allFailedMsg 3 (c4errf (3 - 1)))⟩ :=
  (c4_withRetry_attempts_backoff_last_error c4op 3 c4errf).1 (by norm_num)
    (fun i _ => rfl)

theorem all_blocks_iff (bl : List String) (ip : List Nat) :
    (bl.all (fun block =>
      match goParseCIDR block with
      | some cidr => !goContains cidr ip
      | none => true) = true) ↔
    ∀ n ∈ bl.filterMap goParseCIDR, goContains n ip = false := by
  induction bl with
  | nil => simp
  | cons b rest ih =>
    cases hb : goParseCIDR b <;>
      simp [List.all_cons, hb, List.filterMap_cons, ih]

/-- C7: `isPublicIP` (the spec's `isGloballyRoutable`) returns `true` for a
string iff the string parses as an IP address and no block of the fixed
reserved-range table contains the parsed address; the table consists of
the RFC1918 blocks, link-local, loopback, multicast and the all-ones
broadcast address; in particular `8.8.8.8` is routable and `192.168.1.1`
is not. -/
theorem c7_isGloballyRoutable_iff_outside_reserved_table (ip : String) :
    (isPublicIP ip = true ↔
      ∃ parsedIP, goParseIP ip = some parsedIP ∧
        ∀ n ∈ reservedNets, goContains n parsedIP = false) ∧
    reservedNets =
      [⟨[10, 0, 0, 0], [255, 0, 0, 0]⟩, ⟨[172, 16, 0, 0], [255, 240, 0, 0]⟩,
       ⟨[192, 168, 0, 0], [255, 255, 0, 0]⟩, ⟨[169, 254, 0, 0], [255, 255, 0, 0]⟩,
       ⟨[127, 0, 0, 0], [255, 0, 0, 0]⟩, ⟨[224, 0, 0, 0], [240, 0, 0, 0]⟩,
       ⟨[255, 255, 255, 255], [255, 255, 255, 255]⟩] ∧
    isPublicIP "8.8.8.8" = true ∧ isPublicIP "192.168.1.1" = false := by
  refine ⟨?_, by decide, by decide, by decide⟩
  unfold isPublicIP reservedNets
  cases hp : goParseIP ip with
  | none => simp
  | some parsedIP => simpa using all_blocks_iff privateIPBlocks parsedIP

/-- C8: for a string that does not parse as an IP address, both the set
containment test and the routability test return `false`; being
`Bool`-valued they report no error. -/
theorem c8_unparseable_address_yields_false (ip : String) (ipNets : List GoIPNet)
    (h : goParseIP ip = none) :
    isIPInList ip ipNets = false ∧ isPublicIP ip = false := by
  unfold isIPInList isPublicIP
  rw [h]
  exact ⟨rfl, rfl⟩

theorem c8_unparseable_address_yields_false_witness :
    isIPInList "not an ip" [⟨[10, 0, 0, 0], [255, 0, 0, 0]⟩] = false ∧
    isPublicIP "not an ip" = false :=
  c8_unparseable_address_yields_false "not an ip"
    [⟨[10, 0, 0, 0], [255, 0, 0, 0]⟩] (by decide)

/-- C3 is refuted on IPv6 bare addresses: `loadIPs` stores the entry for
the line `::1` with the 4-byte `CIDRMask(32, 32)` mask, not a 128-bit host
mask; that mask differs from `CIDRMask(128, 128)`, and the stored block
does not even contain `::1` itself, whereas a 128-bit host mask would. -/
theorem c3_ipv6_host_mask_counterexample :
    loadIPs ["::1"] = .ok [⟨ipv6Loopback, goCIDRMask 32 32⟩] ∧
    goCIDRMask 32 32 ≠ goCIDRMask 128 128 ∧
    goContains ⟨ipv6Loopback, goCIDRMask 32 32⟩ ipv6Loopback = false ∧
    goContains ⟨ipv6Loopback, goCIDRMask 128 128⟩ ipv6Loopback = true := by
  decide

/-- C3 (amended): `loadIPs` succeeds iff every trimmed line parses as a
CIDR block or as a bare IP address, aborting with an error otherwise (no
partial result); on success each line contributes, in order, the parsed
CIDR when the line is a CIDR, and otherwise the bare address under a
32-bit `CIDRMask(32, 32)` mask regardless of address family (so an IPv4
address gets its narrowest host mask, while an IPv6 bare address gets a
4-byte mask and the resulting block matches no address). -/
theorem c3_loadIPs_amended (lines : List String) :
    ((∃ ipNets, loadIPs lines = .ok ipNets) ↔
      ∀ l ∈ lines, ((goParseCIDR (trimSpace l)).isSome = true ∨
        (goParseIP (trimSpace l)).isSome = true)) ∧
    ∀ ipNets, loadIPs lines = .ok ipNets →
      ipNets = lines.map (fun l => lineEntry (trimSpace l)) := by
  induction lines with
  | nil => simp [loadIPs]
  | cons l rest ih =>
    obtain ⟨ih1, ih2⟩ := ih
    cases hc : goParseCIDR (trimSpace l) with
    | some ipNet =>
      cases hr : loadIPs rest with
      | ok ns =>
        simp only [loadIPs, hc, hr, Except.map]
        constructor
        · constructor
          · intro _ x hx
            rcases List.mem_cons.mp hx with hx | hx
            · subst hx; left; simp [hc]
            · exact ih1.mp ⟨ns, hr⟩ x hx
          · intro _; exact ⟨ipNet :: ns, rfl⟩
        · intro ns' hns'
          have : ipNet :: ns = ns' := by
            simpa using hns'
          subst this
          simp only [List.map_cons, List.cons.injEq]
          exact ⟨by simp [lineEntry, hc], ih2 ns hr⟩
      | error e =>
        simp only [loadIPs, hc, hr, Except.map]
        constructor
        · constructor
          · intro ⟨ns, hns⟩; simp at hns
          · intro hall
            exfalso
            obtain ⟨ns, hns⟩ := ih1.mpr (fun x hx => hall x (List.mem_cons_of_mem _ hx))
            rw [hr] at hns; exact Except.noConfusion hns
        · intro ns hns; simp at hns
    | none =>
      cases hp : goParseIP (trimSpace l) with
      | some ip =>
        cases hr : loadIPs rest with
        | ok ns =>
          simp only [loadIPs, hc, hp, Except.map]
          constructor
          · constructor
            · intro _ x hx
              rcases List.mem_cons.mp hx with hx | hx
              · subst hx; right; simp [hp]
              · exact ih1.mp ⟨ns, hr⟩ x hx
            · intro _; rw [hr]; exact ⟨⟨ip, goCIDRMask 32 32⟩ :: ns, rfl⟩
          · intro ns' hns'
            rw [hr] at hns'
            have : (⟨ip, goCIDRMask 32 32⟩ : GoIPNet) :: ns = ns' := by
              simpa using hns'
            subst this
            simp only [List.map_cons, List.cons.injEq]
            exact ⟨by simp [lineEntry, hc, hp], ih2 ns hr⟩
        | error e =>
          simp only [loadIPs, hc, hp, Except.map, hr]
          constructor
          · constructor
            · intro ⟨ns, hns⟩; simp at hns
            · intro hall
              exfalso
              obtain ⟨ns, hns⟩ := ih1.mpr (fun x hx => hall x (List.mem_cons_of_mem _ hx))
              rw [hr] at hns; exact Except.noConfusion hns
          · intro ns hns; simp at hns
      | none =>
        simp only [loadIPs, hc, hp]
        constructor
        · constructor
          · intro ⟨ns, hns⟩; simp at hns
          · intro hall
            exfalso
            have := hall l (List.mem_cons_self l rest)
            rcases this with h | h
            · rw [hc] at h; simp at h
            · rw [hp] at h; simp at h
        · intro ns hns; simp at hns

theorem c3_loadIPs_amended_witness :
    ∃ ipNets, loadIPs ["10.0.0.0/8", "1.2.3.4"] = .ok ipNets :=
  (c3_loadIPs_amended ["10.0.0.0/8", "1.2.3.4"]).1.mpr (by decide)

theorem condInList_eq_any (ip : String) (lookup : String → List GoIPNet)
    (lfs : List String) :
    condInList ip lookup lfs =
      lfs.any (fun lf => if lf = "Internet" then isPublicIP ip
        else isIPInList ip (lookup lf)) := by
  induction lfs with
  | nil => rfl
  | cons lf rest ih =>
    simp only [condInList, List.any_cons, ih]
    cases h : (if lf = "Internet" then isPublicIP ip else isIPInList ip (lookup lf)) <;>
      simp

theorem condInList_iff (ip : String) (lookup : String → List GoIPNet)
    (lfs : List String) :
    condInList ip lookup lfs = true ↔ ∃ lf ∈ lfs, RefMatches lookup ip lf := by
  rw [condInList_eq_any, List.any_eq_true]
  exact Iff.rfl

theorem evalConds_iff (record : List String) (lookup : String → List GoIPNet)
    (conds : List FilterCondition) :
    evalConds record lookup conds = true ↔
      ∀ c ∈ conds, CondHolds lookup record c := by
  induction conds with
  | nil => simp [evalConds]
  | cons c rest ih =>
    simp only [evalConds]
    by_cases hfail :
        (c.Operator = "==" ∧ condInList (condIP record c) lookup c.ListFiles = false) ∨
        (c.Operator = "!=" ∧ condInList (condIP record c) lookup c.ListFiles = true)
    · rw [if_pos hfail]
      constructor
      · intro h; exact absurd h (by simp)
      · intro hall
        exfalso
        have hc := hall c (List.mem_cons_self c rest)
        rcases hfail with ⟨hop, hf⟩ | ⟨hop, hf⟩
        · have := (condInList_iff _ _ _).mpr (hc.1 hop)
          rw [hf] at this; exact Bool.noConfusion this
        · exact hc.2 hop ((condInList_iff _ _ _).mp hf)
    · rw [if_neg hfail, ih]
      push_neg at hfail
      obtain ⟨hne, hnq⟩ := hfail
      constructor
      · intro hrest x hx
        rcases List.mem_cons.mp hx with hx | hx
        · subst hx
          constructor
          · intro hop
            apply (condInList_iff _ _ _).mp
            cases hb : condInList (condIP record x) lookup x.ListFiles with
            | true => rfl
            | false => exact absurd hb (hne hop)
          · intro hop hex
            exact hnq hop ((condInList_iff _ _ _).mpr hex)
        · exact hrest x hx
      · intro hall x hx
        exact hall x (List.mem_cons_of_mem _ hx)

theorem keepRecord_short (conds : List FilterCondition) (flowStatus : String)
    (lookup : String → List GoIPNet) (r : List String) (h1 : r.length < 5) :
    keepRecord conds flowStatus lookup r = false := by
  unfold keepRecord; rw [if_pos h1]

theorem keepRecord_status (conds : List FilterCondition) (flowStatus : String)
    (lookup : String → List GoIPNet) (r : List String) (h1 : ¬ r.length < 5)
    (h2 : r.headD "" ≠ flowStatus) :
    keepRecord conds flowStatus lookup r = false := by
  unfold keepRecord; rw [if_neg h1, if_pos h2]

theorem keepRecord_eval (conds : List FilterCondition) (flowStatus : String)
    (lookup : String → List GoIPNet) (r : List String) (h1 : ¬ r.length < 5)
    (h2 : ¬ r.headD "" ≠ flowStatus) :
    keepRecord conds flowStatus lookup r = evalConds r lookup conds := by
  unfold keepRecord; rw [if_neg h1, if_neg h2]

theorem filterRecords_eq (conds : List FilterCondition) (flowStatus : String)
    (lookup : String → List GoIPNet) (records : List (List String)) :
    filterRecords conds flowStatus lookup records =
      ⟨records.filter (keepRecord conds flowStatus lookup), records.length,
       (records.filter (keepRecord conds flowStatus lookup)).length⟩ := by
  induction records with
  | nil => rfl
  | cons r rest ih =>
    unfold filterRecords
    rw [ih, List.filter_cons]
    by_cases h1 : r.length < 5
    · rw [if_pos h1, keepRecord_short conds flowStatus lookup r h1]
      simp
    · rw [if_neg h1]
      by_cases h2 : r.headD "" ≠ flowStatus
      · rw [if_pos h2, keepRecord_status conds flowStatus lookup r h1 h2]
        simp
      · rw [if_neg h2, keepRecord_eval conds flowStatus lookup r h1 h2]
        by_cases h3 : evalConds r lookup conds = true
        · rw [if_pos h3, if_pos h3]
          simp
        · rw [if_neg h3, if_neg h3]
          simp

/-- C1: the records written by the filter engine are exactly the input
records (unchanged and in order) that pass the per-record decision, and
for every record with at least five columns that decision holds iff the
record's first column equals the preset's flow status exactly and every
condition holds, where a condition with operator `"=="` requires some list
reference to match the resolved address and `"!="` requires that none
does. -/
theorem c1_filter_retention_iff (conds : List FilterCondition)
    (flowStatus : String) (lookup : String → List GoIPNet)
    (records : List (List String)) :
    (filterRecords conds flowStatus lookup records).written =
      records.filter (keepRecord conds flowStatus lookup) ∧
    ∀ record, 5 ≤ record.length →
      (keepRecord conds flowStatus lookup record = true ↔
        (record.headD "" = flowStatus ∧
          ∀ c ∈ conds, CondHolds lookup record c)) := by
  constructor
  · rw [filterRecords_eq]
  · intro r hr
    by_cases h2 : r.headD "" ≠ flowStatus
    · rw [keepRecord_status conds flowStatus lookup r (by omega) h2]
      simp only [Bool.false_eq_true, false_iff, not_and]
      intro h; exact absurd h h2
    · rw [keepRecord_eval conds flowStatus lookup r (by omega) h2]
      rw [evalConds_iff]
      push_neg at h2
      exact ⟨fun h => ⟨h2, h⟩, fun h => h.2⟩

theorem c1_filter_retention_iff_witness :
    keepRecord c1conds "ALLOWED" c1lookup
      ["ALLOWED", "t1", "t2", "10.0.0.5", "8.8.8.8", "443", "tcp", "100"] = true :=
  ((c1_filter_retention_iff c1conds "ALLOWED" c1lookup []).2
    ["ALLOWED", "t1", "t2", "10.0.0.5", "8.8.8.8", "443", "tcp", "100"]
    (by norm_num)).mpr ⟨rfl, by decide⟩

theorem condInList_empty_ip (lookup : String → List GoIPNet) (lfs : List String) :
    condInList "" lookup lfs = false := by
  induction lfs with
  | nil => rfl
  | cons lf rest ih =>
    simp only [condInList]
    by_cases h : lf = "Internet"
    · rw [if_pos h, show isPublicIP "" = false from rfl]
      simpa using ih
    · rw [if_neg h, show isIPInList "" (lookup lf) = false from rfl]
      simpa using ih

theorem condIP_other_field (record : List String) (cond : FilterCondition)
    (hf1 : cond.Field ≠ "sourceIP") (hf2 : cond.Field ≠ "destIP") :
    condIP record cond = "" := by
  unfold condIP
  rw [if_neg hf1, if_neg hf2]

theorem evalConds_eq_exclusion (record : List String)
    (lookup : String → List GoIPNet) (cond : FilterCondition)
    (hf1 : cond.Field ≠ "sourceIP") (hf2 : cond.Field ≠ "destIP")
    (hop : cond.Operator = "==") (conds1 conds2 : List FilterCondition) :
    evalConds record lookup (conds1 ++ cond :: conds2) = false := by
  induction conds1 with
  | nil =>
    simp only [List.nil_append, evalConds]
    rw [condIP_other_field record cond hf1 hf2, condInList_empty_ip]
    rw [if_pos (Or.inl ⟨hop, rfl⟩)]
  | cons c rest ih =>
    simp only [List.cons_append, evalConds]
    by_cases hfail :
        (c.Operator = "==" ∧ condInList (condIP record c) lookup c.ListFiles = false) ∨
        (c.Operator = "!=" ∧ condInList (condIP record c) lookup c.ListFiles = true)
    · rw [if_pos hfail]
    · rw [if_neg hfail]; exact ih

theorem evalConds_eq_skip (record : List String)
    (lookup : String → List GoIPNet) (cond : FilterCondition)
    (hf1 : cond.Field ≠ "sourceIP") (hf2 : cond.Field ≠ "destIP")
    (hop : cond.Operator = "!=") (conds1 conds2 : List FilterCondition) :
    evalConds record lookup (conds1 ++ cond :: conds2) =
      evalConds record lookup (conds1 ++ conds2) := by
  induction conds1 with
  | nil =>
    simp only [List.nil_append]
    conv_lhs => rw [evalConds]
    rw [condIP_other_field record cond hf1 hf2, condInList_empty_ip]
    rw [if_neg (by rw [hop]; simp)]
  | cons c rest ih =>
    simp only [List.cons_append, evalConds]
    by_cases hfail :
        (c.Operator = "==" ∧ condInList (condIP record c) lookup c.ListFiles = false) ∨
        (c.Operator = "!=" ∧ condInList (condIP record c) lookup c.ListFiles = true)
    · rw [if_pos hfail, if_pos hfail]
    · rw [if_neg hfail, if_neg hfail]; exact ih

/-- C10: a condition whose field is neither `"sourceIP"` nor `"destIP"`
resolves the empty string as the address, every list-membership test on
the empty string (the `"Internet"` sentinel included) is `false`, and
consequently such a condition with operator `"=="` makes the engine write
no record at all, while with operator `"!="` it changes nothing: the run
behaves as if the condition were absent. -/
theorem c10_unknown_field_condition (cond : FilterCondition)
    (lookup : String → List GoIPNet)
    (hf1 : cond.Field ≠ "sourceIP") (hf2 : cond.Field ≠ "destIP") :
    (∀ record, condIP record cond = "") ∧
    isPublicIP "" = false ∧
    (∀ ipNets, isIPInList "" ipNets = false) ∧
    (∀ lfs, condInList "" lookup lfs = false) ∧
    (cond.Operator = "==" →
      ∀ conds1 conds2 flowStatus records,
        (filterRecords (conds1 ++ cond :: conds2) flowStatus lookup records).written
          = []) ∧
    (cond.Operator = "!=" →
      ∀ conds1 conds2 flowStatus records,
        filterRecords (conds1 ++ cond :: conds2) flowStatus lookup records =
          filterRecords (conds1 ++ conds2) flowStatus lookup records) := by
  refine ⟨fun record => condIP_other_field record cond hf1 hf2, rfl,
    fun _ => rfl, condInList_empty_ip lookup, ?_, ?_⟩
  · intro hop conds1 conds2 flowStatus records
    rw [filterRecords_eq]
    apply List.filter_eq_nil_iff.mpr
    intro r _
    by_cases h1 : r.length < 5
    · simp [keepRecord_short _ _ _ _ h1]
    · by_cases h2 : r.headD "" ≠ flowStatus
      · simp [keepRecord_status _ _ _ _ h1 h2]
      · rw [keepRecord_eval _ _ _ _ h1 h2,
          evalConds_eq_exclusion r lookup cond hf1 hf2 hop conds1 conds2]
        simp
  · intro hop conds1 conds2 flowStatus records
    rw [filterRecords_eq, filterRecords_eq]
    have hkeep : ∀ r ∈ records,
        keepRecord (conds1 ++ cond :: conds2) flowStatus lookup r =
        keepRecord (conds1 ++ conds2) flowStatus lookup r := by
      intro r _
      by_cases h1 : r.length < 5
      · rw [keepRecord_short _ _ _ _ h1, keepRecord_short _ _ _ _ h1]
      · by_cases h2 : r.headD "" ≠ flowStatus
        · rw [keepRecord_status _ _ _ _ h1 h2, keepRecord_status _ _ _ _ h1 h2]
        · rw [keepRecord_eval _ _ _ _ h1 h2, keepRecord_eval _ _ _ _ h1 h2,
            evalConds_eq_skip r lookup cond hf1 hf2 hop conds1 conds2]
    rw [List.filter_congr hkeep]

theorem c10_unknown_field_condition_witness :
    (filterRecords [c10cond] "ALLOWED" (fun _ => [])
      [["ALLOWED", "t1", "t2", "8.8.8.8", "9.9.9.9"]]).written = [] :=
  ((c10_unknown_field_condition c10cond (fun _ => [])
    (by decide) (by decide)).2.2.2.2.1 rfl [] [] "ALLOWED"
    [["ALLOWED", "t1", "t2", "8.8.8.8", "9.9.9.9"]])

/-- C9: a filtering pass that reaches the end of its input (the input has
a header row and the referenced lists load) returns a non-`nil` error
value whose message is built from the processed-record and
retained-record counts, and the CLI `main` classifies exactly this
non-`nil` return as the success case. -/
theorem c9_counts_reported_through_error_value (conds : List FilterCondition)
    (flowStatus : String) (fsys : String → Option (List String))
    (lookup : String → List GoIPNet) (header : List String)
    (records : List (List String))
    (hload : loadLists conds fsys = .ok lookup) :
    (filterCSVrun conds flowStatus fsys (header :: records)).ret =
      some (countsMsg records.length
        (records.filter (keepRecord conds flowStatus lookup)).length) ∧
    mainTreatsFilterReturnAsSuccess
      (filterCSVrun conds flowStatus fsys (header :: records)).ret = true ∧
    (filterCSVrun conds flowStatus fsys (header :: records)).output =
      header :: records.filter (keepRecord conds flowStatus lookup) := by
  simp [filterCSVrun, hload, filterRecords_eq, mainTreatsFilterReturnAsSuccess]

theorem c9_counts_reported_through_error_value_witness :
    (filterCSVrun [] "ALLOWED" (fun _ => none)
      [["h1", "h2"], ["ALLOWED", "t1", "t2", "8.8.8.8", "9.9.9.9"]]).ret =
      some (countsMsg [(["ALLOWED", "t1", "t2", "8.8.8.8", "9.9.9.9"])].length
        ([(["ALLOWED", "t1", "t2", "8.8.8.8", "9.9.9.9"])].filter
          (keepRecord [] "ALLOWED" (fun _ => []))).length) ∧
    mainTreatsFilterReturnAsSuccess
      (filterCSVrun [] "ALLOWED" (fun _ => none)
        [["h1", "h2"], ["ALLOWED", "t1", "t2", "8.8.8.8", "9.9.9.9"]]).ret = true ∧
    (filterCSVrun [] "ALLOWED" (fun _ => none)
      [["h1", "h2"], ["ALLOWED", "t1", "t2", "8.8.8.8", "9.9.9.9"]]).output =
      ["h1", "h2"] :: [(["ALLOWED", "t1", "t2", "8.8.8.8", "9.9.9.9"])].filter
        (keepRecord [] "ALLOWED" (fun _ => [])) :=
  c9_counts_reported_through_error_value [] "ALLOWED" (fun _ => none)
    (fun _ => []) ["h1", "h2"] [["ALLOWED", "t1", "t2", "8.8.8.8", "9.9.9.9"]] rfl

theorem segPartition (w N : Nat) (hw : 0 < w) (l : List (Nat × Nat))
    (hstruct : ∀ p ∈ l, p.2 = p.1 + w ∧ p.1 % w = 0 ∧ p.1 < w * N)
    (hall : ∀ j, j < N → (w * j, w * j + w) ∈ l)
    (t : ℚ) (h0 : 0 ≤ t) (ht : t < (w : ℚ) * (N : ℚ)) :
    (∃ p ∈ l, (p.1 : ℚ) ≤ t ∧ t < (p.2 : ℚ)) ∧
    (∀ p ∈ l, ∀ q ∈ l, (p.1 : ℚ) ≤ t → t < (p.2 : ℚ) →
      (q.1 : ℚ) ≤ t → t < (q.2 : ℚ) → p = q) := by
  have hwq : (0 : ℚ) < (w : ℚ) := by exact_mod_cast hw
  constructor
  · have hj0 : (0 : ℤ) ≤ ⌊t / (w : ℚ)⌋ := Int.floor_nonneg.mpr (by positivity)
    have hjN : ⌊t / (w : ℚ)⌋ < (N : ℤ) := by
      apply Int.floor_lt.mpr
      push_cast
      rw [div_lt_iff₀ hwq]
      linarith [ht]
    set j : Nat := (⌊t / (w : ℚ)⌋).toNat with hj
    have hjcast : (j : ℤ) = ⌊t / (w : ℚ)⌋ := Int.toNat_of_nonneg hj0
    have hjN' : j < N := by omega
    refine ⟨(w * j, w * j + w), hall j hjN', ?_, ?_⟩
    · have := Int.floor_le (t / (w : ℚ))
      rw [← hjcast] at this
      push_cast at this ⊢
      rw [le_div_iff₀ hwq] at this
      nlinarith [this]
    · have := Int.lt_floor_add_one (t / (w : ℚ))
      rw [← hjcast] at this
      push_cast at this ⊢
      rw [div_lt_iff₀ hwq] at this
      nlinarith [this]
  · intro p hp q hq hp1 hp2 hq1 hq2
    obtain ⟨hpw, hpm, _⟩ := hstruct p hp
    obtain ⟨hqw, hqm, _⟩ := hstruct q hq
    obtain ⟨a, ha⟩ := Nat.dvd_of_mod_eq_zero hpm
    obtain ⟨b, hb⟩ := Nat.dvd_of_mod_eq_zero hqm
    have hab : a = b := by
      rw [hpw, ha] at hp2
      rw [hqw, hb] at hq2
      rw [ha] at hp1
      rw [hb] at hq1
      push_cast at hp1 hp2 hq1 hq2
      have h1 : ((a : ℚ)) < (b : ℚ) + 1 := by
        have : (w : ℚ) * a < (w : ℚ) * (b + 1) := by nlinarith
        have := (mul_lt_mul_left hwq).mp this
        linarith
      have h2 : ((b : ℚ)) < (a : ℚ) + 1 := by
        have : (w : ℚ) * b < (w : ℚ) * (a + 1) := by nlinarith
        have := (mul_lt_mul_left hwq).mp this
        linarith
      have h1' : a < b + 1 := by exact_mod_cast h1
      have h2' : b < a + 1 := by exact_mod_cast h2
      omega
    have hfst : p.1 = q.1 := by rw [ha, hb, hab]
    have hsnd : p.2 = q.2 := by rw [hpw, hqw, hfst]
    exact Prod.ext hfst hsnd

/-- C5: both generated segment tables partition a 24-hour day exactly, as
offsets from the base date: for every rational instant `t` in `[0, 24)`
hours there is exactly one segment `[from, to)` containing `t`, every
segment is 2 hours wide in the concurrent (12-segment) table and 4 hours
wide in the sequential (6-segment) table, and both tables run in reverse
chronological order (latest segment first). -/
theorem c5_timeSegments_partition_day (t : ℚ) (h0 : 0 ≤ t) (ht : t < 24) :
    ((∃ p ∈ timeSegmentsAuto, (p.1 : ℚ) ≤ t ∧ t < (p.2 : ℚ)) ∧
     (∀ p ∈ timeSegmentsAuto, ∀ q ∈ timeSegmentsAuto,
       (p.1 : ℚ) ≤ t → t < (p.2 : ℚ) → (q.1 : ℚ) ≤ t → t < (q.2 : ℚ) → p = q)) ∧
    ((∃ p ∈ timeSegmentsApi6, (p.1 : ℚ) ≤ t ∧ t < (p.2 : ℚ)) ∧
     (∀ p ∈ timeSegmentsApi6, ∀ q ∈ timeSegmentsApi6,
       (p.1 : ℚ) ≤ t → t < (p.2 : ℚ) → (q.1 : ℚ) ≤ t → t < (q.2 : ℚ) → p = q)) ∧
    timeSegmentsAuto =
      (List.range 12).map (fun i => (2 * (11 - i), 2 * (11 - i) + 2)) ∧
    timeSegmentsApi6 =
      (List.range 6).map (fun i => (4 * (5 - i), 4 * (5 - i) + 4)) ∧
    timeSegmentsAuto.length = 12 ∧ timeSegmentsApi6.length = 6 := by
  refine ⟨?_, ?_, by decide, by decide, by decide, by decide⟩
  · exact segPartition 2 12 (by norm_num) timeSegmentsAuto (by decide) (by decide)
      t h0 (by push_cast; linarith)
  · exact segPartition 4 6 (by norm_num) timeSegmentsApi6 (by decide) (by decide)
      t h0 (by push_cast; linarith)

theorem c5_timeSegments_partition_day_witness :
    ∃ p ∈ timeSegmentsAuto, (p.1 : ℚ) ≤ 5 ∧ (5 : ℚ) < (p.2 : ℚ) :=
  ((c5_timeSegments_partition_day 5 (by norm_num) (by norm_num)).1).1

theorem concatAll_append (a b : List String) :
    concatAll (a ++ b) = concatAll a ++ concatAll b := by
  induction a with
  | nil => simp [concatAll, String.empty_append]
  | cons x xs ih => simp [concatAll, ih, String.append_assoc]

theorem goFileWrite_true (file content : String) :
    goFileWrite file true content = file ++ content := rfl

theorem goFileWrite_false_empty (content : String) :
    goFileWrite "" false content = content := by
  show content ++ ⟨("" : String).data.drop content.data.length⟩ = content
  rw [show ("" : String).data = [] from rfl, List.drop_nil]
  rw [show (⟨[]⟩ : String) = "" from rfl]
  exact String.append_empty content

theorem enumFrom_append_run (rest : List (List (String → String))) :
    ∀ (k : Nat), 0 < k → ∀ (file : String),
    (rest.enumFrom k).foldl
      (fun f p => goFileWrite f (decide (0 < p.1)) (writeCSVContent p.2 (decide (0 < p.1))))
      file
    = file ++ concatAll (rest.map (fun d => writeCSVContent d true)) := by
  induction rest with
  | nil => intro k hk file; simp [concatAll, String.append_empty]
  | cons d ds ih =>
    intro k hk file
    simp only [List.enumFrom, List.foldl_cons]
    rw [show decide (0 < k) = true by simpa using hk]
    rw [goFileWrite_true, ih (k + 1) (by omega)]
    simp [concatAll, String.append_assoc]

theorem enumFrom_rows (rest : List (List (String → String))) :
    ∀ (k : Nat), 0 < k →
    (rest.enumFrom k).map (fun p => writeCSVRows p.2 (decide (0 < p.1))) =
      rest.map (fun d => writeCSVRows d true) := by
  induction rest with
  | nil => intro k _; rfl
  | cons d ds ih =>
    intro k hk
    simp only [List.enumFrom, List.map_cons]
    rw [show decide (0 < k) = true by simpa using hk, ih (k + 1) (by omega)]

theorem writeCSVContent_eq_rows (data : List (String → String)) (appendMode : Bool) :
    writeCSVContent data appendMode =
      concatAll ((writeCSVRows data appendMode).map encodeRow) := by
  cases appendMode with
  | true =>
    unfold writeCSVContent writeCSVRows
    rw [if_pos (rfl : (true : Bool) = true), if_pos (rfl : (true : Bool) = true)]
    rw [String.empty_append, List.nil_append, List.map_map]
    rfl
  | false =>
    unfold writeCSVContent writeCSVRows
    rw [if_neg Bool.false_ne_true, if_neg Bool.false_ne_true]
    rw [show (([headersList] ++ data.map flowRecord).map encodeRow) =
      encodeRow headersList :: (data.map flowRecord).map encodeRow from rfl]
    rw [show concatAll (encodeRow headersList :: (data.map flowRecord).map encodeRow) =
      encodeRow headersList ++ concatAll ((data.map flowRecord).map encodeRow) from rfl]
    rw [List.map_map]
    rfl

theorem concatAll_map_flatten (f : List String → String)
    (ls : List (List (List String))) :
    concatAll (ls.flatten.map f) =
      concatAll (ls.map (fun l => concatAll (l.map f))) := by
  induction ls with
  | nil => rfl
  | cons x xs ih =>
    simp only [List.flatten_cons, List.map_append, concatAll_append, ih,
      List.map_cons]
    rfl

theorem findIPSubmatch_chars (l : List Char) :
    ∀ g, findIPSubmatch l = some g → ∀ c ∈ g, isDigitDot c = true := by
  induction l with
  | nil => intro g h; simp [findIPSubmatch] at h
  | cons x rest ih =>
    intro g h c hc
    unfold findIPSubmatch at h
    split at h
    · have hg : List.takeWhile isDigitDot (List.drop ipAddrToken.length (x :: rest)) = g := by
        simpa using h
      rw [← hg] at hc
      exact List.mem_takeWhile_imp hc
    · exact ih g h c hc

theorem extractIP_all_digitDot (s : String) :
    ∀ c ∈ (extractIP s).data, isDigitDot c = true := by
  unfold extractIP
  cases h : findIPSubmatch s.data with
  | none => intro c hc; simp at hc
  | some g => exact findIPSubmatch_chars s.data g h

theorem flowRecord_ne_headersList (flowMap : String → String) :
    flowRecord flowMap ≠ headersList := by
  intro h
  have h4 := congrArg (fun l => l.getD 3 "") h
  simp [flowRecord, originalHeaders, headersList] at h4
  have hall := extractIP_all_digitDot (flowMap "src")
  rw [h4] at hall
  exact absurd (hall 'S' (by decide)) (by decide)

/-- C6: for a run merging at least one segment, the rows emitted across
the whole merge are the header followed by every segment's data rows in
segment order (only logical position 0 emits the header, later positions
append without one), so the header row occurs exactly once and first, and
the assembled output file is the byte-wise concatenation of exactly those
rows. -/
theorem c6_header_exactly_once_at_top (segs : List (List (String → String)))
    (h : 0 < segs.length) :
    runRows segs = headersList :: (segs.map (fun d => d.map flowRecord)).flatten ∧
    (runRows segs).count headersList = 1 ∧
    autoAssemble segs = concatAll ((runRows segs).map encodeRow) := by
  cases segs with
  | nil => simp at h
  | cons s0 rest =>
    have hrows : runRows (s0 :: rest) =
        headersList :: ((s0 :: rest).map (fun d => d.map flowRecord)).flatten := by
      unfold runRows
      rw [show (s0 :: rest).enum = (0, s0) :: rest.enumFrom 1 from rfl]
      rw [List.map_cons, List.flatten_cons, enumFrom_rows rest 1 (by omega)]
      rw [show writeCSVRows s0 (decide (0 < 0)) =
        headersList :: s0.map flowRecord from rfl]
      simp only [show ∀ d : List (String → String),
        writeCSVRows d true = d.map flowRecord from fun _ => rfl]
      simp [List.flatten_cons]
    refine ⟨hrows, ?_, ?_⟩
    · rw [hrows, List.count_cons_self]
      have hzero : ((s0 :: rest).map (fun d => d.map flowRecord)).flatten.count
          headersList = 0 := by
        apply List.count_eq_zero.mpr
        intro hmem
        obtain ⟨sub, hsub, hmem'⟩ := List.mem_flatten.mp hmem
        obtain ⟨d, _, rfl⟩ := List.mem_map.mp hsub
        obtain ⟨f, _, hf⟩ := List.mem_map.mp hmem'
        exact flowRecord_ne_headersList f hf
      rw [hzero]
    · have hrows2 : runRows (s0 :: rest) =
          writeCSVRows s0 false ++
            (rest.map (fun d => writeCSVRows d true)).flatten := by
        unfold runRows
        rw [show (s0 :: rest).enum = (0, s0) :: rest.enumFrom 1 from rfl]
        rw [List.map_cons, List.flatten_cons, enumFrom_rows rest 1 (by omega)]
        rfl
      unfold autoAssemble
      rw [show (s0 :: rest).enum = (0, s0) :: rest.enumFrom 1 from rfl]
      simp only [List.foldl_cons]
      rw [show (decide (0 < (0, s0).1)) = false from rfl]
      rw [goFileWrite_false_empty]
      rw [enumFrom_append_run rest 1 (by omega)]
      rw [hrows2, List.map_append, concatAll_append, concatAll_map_flatten]
      rw [writeCSVContent_eq_rows]
      congr 1
      simp only [writeCSVContent_eq_rows, List.map_map]
      rfl

theorem c6_header_exactly_once_at_top_witness :
    (runRows sampleSegs).count headersList = 1 :=
  (c6_header_exactly_once_at_top sampleSegs (by decide)).2.1

/-- C2 fails on the `api/api.go` concurrent variant: there each goroutine
writes its own segment (under the mutex) as soon as its fetch succeeds, so
the writes hit the file in completion order.  With both segments fetching
one flow each and segment 1 completing before segment 0, the file first
receives segment 1's headerless row (append mode); then segment 0's
non-append `writeCSV` reopens the file at offset 0 and overwrites it with
the header and segment 0's row — together longer than segment 1's row, so
segment 1's data is lost entirely.  The result differs from the
canonical-order output, which the sequential loop and `api_auto`'s
collect-by-index-then-write loop (`autoAssemble`) produce for every
completion order. -/
theorem c2_completion_order_changes_output :
    writeSegments sampleSegs [1, 0] ≠ writeSegments sampleSegs [0, 1] ∧
    writeSegments sampleSegs [0, 1] = autoAssemble sampleSegs ∧
    autoAssemble sampleSegs =
      encodeRow headersList ++ encodeRow (flowRecord sampleFlow) ++
        encodeRow (flowRecord sampleFlow2) ∧
    writeSegments sampleSegs [1, 0] =
      encodeRow headersList ++ encodeRow (flowRecord sampleFlow) := by
  refine ⟨by decide, by decide, by decide, by decide⟩
